import Mathlib

/-!
Verification of the XVI-CatPhan analysis core.

This file gives a shallow embedding, over exact rationals (reals where the
source uses inverse trigonometry), of the algorithmic pieces of the CatPhan
analysis code: the CTP528 module locator, the rotation finder, the
resolution-module slice selector, the phantom center finder, the spatial
scaling threshold cascade, the line-pair adaptive threshold, the uniformity
metric, the CTP404 contrast analyzer, and the MTF normalization.

Interpolated image profiles (scipy interpn sampling) are abstracted as the
resulting sample lists; everything downstream of the sampling is translated
statement by statement from the source.
-/

namespace XVICatPhan

/-! ## Shared signal-processing primitives (scipy.signal / numpy) -/

/-- Forward first difference, mirroring numpy diff: element i is x(i+1) - x(i). -/
def npDiff (xs : List ℚ) : List ℚ :=
  List.zipWith (fun a b => a - b) xs.tail xs

/-- Scan to the end of a plateau of value v, mirroring the inner while loop of
the scipy local-maxima routine: advance j while j < n - 1 and x j = v. -/
def plateauEndAux (x : ℕ → ℚ) (n : ℕ) (v : ℚ) : ℕ → ℕ → ℕ
  | 0, j => j
  | fuel + 1, j => if j < n - 1 ∧ x j = v then plateauEndAux x n v fuel (j + 1) else j

/-- Main scan of the scipy local-maxima routine: a sample strictly greater than
its neighbours is a peak; a flat plateau that falls off on both sides
contributes its midpoint. Indices 0 and n-1 are never peaks. -/
def localMaximaAux (x : ℕ → ℚ) (n : ℕ) : ℕ → ℕ → List ℕ
  | 0, _ => []
  | fuel + 1, i =>
    if i < n - 1 then
      if x (i - 1) < x i then
        let j := plateauEndAux x n (x i) n (i + 1)
        if x j < x i then (i + (j - 1)) / 2 :: localMaximaAux x n fuel (j + 1)
        else localMaximaAux x n fuel (i + 1)
      else localMaximaAux x n fuel (i + 1)
    else []

/-- Local maxima of a sample list, as computed by scipy find_peaks. -/
def localMaxima (xs : List ℚ) : List ℕ :=
  localMaximaAux (fun i => xs.getD i 0) xs.length xs.length 1

/-- scipy find_peaks with the height argument: local maxima whose value is at
least h (the scipy height test is inclusive). -/
def findPeaksQ (xs : List ℚ) (h : ℚ) : List ℕ :=
  (localMaxima xs).filter (fun i => h ≤ xs.getD i 0)

/-- Pointwise negation of a sample list (the -df profiles in the source). -/
def negL (xs : List ℚ) : List ℚ := xs.map (fun v => -v)

/-- Mean of a list, mirroring numpy mean; division by a zero length yields 0
under Lean division (numpy would produce NaN on an empty list; no claim in
this file evaluates a mean of an empty list). -/
def listMean (xs : List ℚ) : ℚ := xs.sum / (xs.length : ℚ)

/-- Maximum of a list with default 0 for the empty list (numpy max). -/
def listMaxD (xs : List ℚ) : ℚ :=
  match xs with
  | [] => 0
  | v :: vs => vs.foldl max v

/-- Minimum of a list with default 0 for the empty list (numpy min). -/
def listMinD (xs : List ℚ) : ℚ :=
  match xs with
  | [] => 0
  | v :: vs => vs.foldl min v

/-- Index of the first occurrence of the maximum (numpy argmax); 0 on []. -/
def argmaxList (xs : List ℚ) : ℕ :=
  (xs.foldl (fun (st : ℕ × ℕ × Option ℚ) v =>
    match st with
    | (_, cur, none) => (cur, cur + 1, some v)
    | (best, cur, some bv) =>
      if bv < v then (cur, cur + 1, some v) else (best, cur + 1, some bv)) (0, 0, none)).1

/-- Index of the first occurrence of the minimum (numpy argmin); 0 on []. -/
def argminList (xs : List ℚ) : ℕ :=
  (xs.foldl (fun (st : ℕ × ℕ × Option ℚ) v =>
    match st with
    | (_, cur, none) => (cur, cur + 1, some v)
    | (best, cur, some bv) =>
      if v < bv then (cur, cur + 1, some v) else (best, cur + 1, some bv)) (0, 0, none)).1

/-! ## C1: module locator find_slice_ctp528 (geometry.py lines 179-279)

The interpolated line-pair profiles of slice i are abstracted as a function
`d : ℕ → List ℚ` giving the concatenated first-difference values (tmpdf2 in
the source) of the nine sector profiles of slice i; the search logic over
slices is translated literally. The source returns an index on every path
(it never raises); the result is wrapped in Except so that the presence or
absence of a raised error can be stated. -/

/-- Signature test of a slice, from the source: the slice matches when more
than thres2 = 50 of the absolute concatenated derivative values exceed
thres1 = 100. -/
def matchesCTP528 (d : ℕ → List ℚ) (i : ℕ) : Bool :=
  50 < (d i).countP (fun v => decide (100 < |v|))

/-- Candidate order tried before the full-stack scan, from the source:
expected slice, then plus 1, minus 1, plus 2, minus 2 (as integers, since
z - 1 and z - 2 may be negative). -/
def ctp528SearchOrder (z : ℕ) : List ℤ :=
  [(z : ℤ), (z : ℤ) + 1, (z : ℤ) - 1, (z : ℤ) + 2, (z : ℤ) - 2]

/-- Embedding of find_slice_ctp528: try the expected candidates (skipping
out-of-range ones), then scan slices 0 .. n-2, and finally fall back to
returning z_tmp = min expected (n-1). Every path is an ok result because the
source returns an index on every path. -/
def find_slice_ctp528 (d : ℕ → List ℚ) (n : ℕ) (expected : ℕ) : Except String ℕ :=
  let z := min expected (n - 1)
  match (ctp528SearchOrder z).find?
      (fun i => decide (0 ≤ i) && decide (i < (n : ℤ) - 1) && matchesCTP528 d i.toNat) with
  | some i => Except.ok i.toNat
  | none =>
    match (List.range (n - 1)).find? (fun i => matchesCTP528 d i) with
    | some i => Except.ok i
    | none => Except.ok z

end XVICatPhan

namespace XVICatPhan

/-- C1 helper: a stack of slices whose concatenated derivative profiles are
all empty, so that no slice can match the line-pair signature. -/
def flatStack : ℕ → List ℚ := fun _ => []

/-! ## C2: the rotation angle computation of find_rotation (geometry.py
lines 172-177)

The source computes rotation_angle = -arctan(tx / ty) * 180 / pi from the
final top point ct and bottom point cb, with tx = ct[0] - cb[0] and
ty = ct[1] - cb[1]. The single-argument arctangent of the quotient is used,
not the two-argument arctangent. Division here is Lean real division, which
returns 0 on a zero denominator; the theorems about this definition keep the
denominator nonzero, matching the float code away from ty = 0. -/

/-- Rotation angle in degrees from the final top and bottom points, translated
from the source: -arctan((ct.x - cb.x) / (ct.y - cb.y)) * 180 / pi. -/
noncomputable def rotationAngleFromPoints (ct cb : ℝ × ℝ) : ℝ :=
  -Real.arctan ((ct.1 - cb.1) / (ct.2 - cb.2)) * 180 / Real.pi

/-- Modelled from the spec: the two-argument arctangent atan2(a, b) (numpy
argument order: numpy.arctan2(x1, x2) is the signed angle of the point
(x2, x1)), which the spec sentence asserts the rotation angle is computed
from. -/
noncomputable def atan2 (a b : ℝ) : ℝ :=
  if 0 < b then Real.arctan (a / b)
  else if b < 0 ∧ 0 ≤ a then Real.arctan (a / b) + Real.pi
  else if b < 0 ∧ a < 0 then Real.arctan (a / b) - Real.pi
  else if b = 0 ∧ 0 < a then Real.pi / 2
  else if b = 0 ∧ a < 0 then -(Real.pi / 2)
  else 0

/-- Rotation angle in degrees as the spec describes it: -atan2(dx, dy)
converted to degrees. -/
noncomputable def specRotationAngle (ct cb : ℝ × ℝ) : ℝ :=
  -atan2 (ct.1 - cb.1) (ct.2 - cb.2) * 180 / Real.pi

/-! ## C8: the iterative refinement loop of find_rotation (geometry.py
lines 147-171)

Points are pairs of rationals. The per-iteration air-ROI localization
find_air_roi_centers (an interpolation of four image profiles followed by a
derivative peak search) is abstracted as a step function from the current
top/bottom points to the new ones; a `none` result models the exception path
(print and break). The loop over 5 iterations, the divergence test against
the previously accepted points with threshold 30, the revert to the original
nominal estimates, and the loop exits are translated literally. The output
record additionally carries the number of loop-body executions and whether
the revert branch ran; these two fields are instrumentation of the control
flow, not data of the source. -/

/-- A point in pixel coordinates. -/
abbrev PointQ := ℚ × ℚ

/-- Divergence test from the source: some coordinate of the new point differs
from the previously accepted point by more than c_thres = 30 pixels. -/
def divergedStep (p q : PointQ) : Bool :=
  decide (30 < |p.1 - q.1|) || decide (30 < |p.2 - q.2|)

/-- Result of the refinement loop: final top and bottom points, number of
loop-body executions, and whether the divergence revert branch ran. -/
structure RefineOut where
  ct : PointQ
  cb : PointQ
  iters : ℕ
  reverted : Bool
  deriving Repr, DecidableEq

/-- The refinement loop, translated from the source: at most `fuel`
iterations; each iteration applies the step; on an exception (none) the loop
breaks keeping the current points; if any coordinate of either new point
moved more than 30 pixels from the previously accepted points, both points
revert to the originals and the loop breaks; otherwise the new points are
accepted and become the comparison baseline for the next iteration. -/
def refineAux (step : PointQ → PointQ → Option (PointQ × PointQ)) (ct0 cb0 : PointQ) :
    ℕ → PointQ → PointQ → PointQ → PointQ → ℕ → RefineOut
  | 0, ct, cb, _, _, k => ⟨ct, cb, k, false⟩
  | fuel + 1, ct, cb, ctOld, cbOld, k =>
    match step ct cb with
    | none => ⟨ct, cb, k + 1, false⟩
    | some (ctN, cbN) =>
      if divergedStep ctN ctOld || divergedStep cbN cbOld then ⟨ct0, cb0, k + 1, true⟩
      else refineAux step ct0 cb0 fuel ctN cbN ctN cbN (k + 1)

/-- Nominal top point estimate from the source geometry: the -90 degree
position on the ring, i.e. (center.x + r cos(-90deg), center.y + r sin(-90deg))
= (center.x, center.y - r). -/
def nominalTop (center : PointQ) (ringR : ℚ) : PointQ := (center.1, center.2 - ringR)

/-- Nominal bottom point estimate from the source geometry: the +90 degree
position on the ring, i.e. (center.x, center.y + r). -/
def nominalBot (center : PointQ) (ringR : ℚ) : PointQ := (center.1, center.2 + ringR)

/-- The find_rotation refinement stage: run the loop for 5 iterations starting
from the nominal estimates, which also serve as the initial comparison
baseline and as the revert target. -/
def findRotationRefine (step : PointQ → PointQ → Option (PointQ × PointQ))
    (center : PointQ) (ringR : ℚ) : RefineOut :=
  let ct0 := nominalTop center ringR
  let cb0 := nominalBot center ringR
  refineAux step ct0 cb0 5 ct0 cb0 ct0 cb0 0

/-! ## C3: resolution-module slice selection select_optimal_ctp528_slices
(geometry.py lines 318-397)

The interpolated line-pair profile means of the five candidate slices
(window positions 0..4 standing for slices z-2 .. z+2) are abstracted as the
input list `means`; the selection logic downstream of the means (numpy argmax,
the idx assignments with Python list-index semantics including negative-index
wrap-around and the IndexError handler) is translated literally. -/

/-- Python list indexing semantics for a list of length n: a negative index i
with -n <= i < 0 addresses position i + n; an index out of [-n, n) raises
IndexError, modelled as none. -/
def pyIndex (n : ℕ) (i : ℤ) : Option ℕ :=
  if 0 ≤ i ∧ i < (n : ℤ) then some i.toNat
  else if -(n : ℤ) ≤ i ∧ i < 0 then some (i + n).toNat
  else none

/-- The idx indicator computation from the source: idx = zeros(5), then
idx[tmp-1] = idx[tmp] = idx[tmp+1] = 1 inside a try block; an IndexError
(only possible at idx[tmp+1] for tmp = 4, since Python wraps idx[-1] for
tmp = 0) discards the earlier writes and the handler assigns [1,1,0,0,0] for
tmp = 0, [0,0,0,1,1] for tmp = 4, and otherwise returns the unaveraged slice
(modelled as none). -/
def ctp528SliceIndicator (tmp : ℕ) : Option (List Bool) :=
  match pyIndex 5 ((tmp : ℤ) - 1), pyIndex 5 (tmp : ℤ), pyIndex 5 ((tmp : ℤ) + 1) with
  | some a, some b, some c =>
    some ((((List.replicate 5 false).set a true).set b true).set c true)
  | _, _, _ =>
    if tmp = 0 then some [true, true, false, false, false]
    else if tmp = 4 then some [false, false, false, true, true]
    else none

/-- Window positions (0..4, i.e. slices z-2 .. z+2) selected for averaging by
select_optimal_ctp528_slices, given the five profile means. -/
def selectedCtp528Positions (means : List ℚ) : Option (List ℕ) :=
  (ctp528SliceIndicator (argmaxList means)).map
    (fun ind => (List.range 5).filter (fun j => ind.getD j false))

/-! ## C4: phantom center finder find_center (geometry.py lines 17-64)

The image is a function from (row, column) to intensity together with its
shape; the central-row and central-column profiles, the first/last threshold
crossings with their plus/minus 1 offsets, the midpoint center, and the
fallback retry at threshold 300 are translated literally. A StopIteration on
both attempts (no crossing anywhere) is modelled as none; the outer boundary
polygon (visualization only) is omitted. -/

/-- numpy round of n/2 for a natural n (round-half-to-even), as used for the
central row and column index matrix_c. -/
def npRoundHalf (n : ℕ) : ℕ :=
  if n % 2 = 0 then n / 2
  else if (n / 2) % 2 = 0 then n / 2 else n / 2 + 1

/-- Index of the first value strictly above t, as next over enumerate does. -/
def firstAbove (t : ℚ) : List ℚ → Option ℕ
  | [] => none
  | v :: vs => if t < v then some 0 else (firstAbove t vs).map (· + 1)

/-- Index of the last value strictly above t, as next over the reversed
enumeration does. -/
def lastAbove (t : ℚ) : List ℚ → Option ℕ
  | [] => none
  | v :: vs =>
    match lastAbove t vs with
    | some i => some (i + 1)
    | none => if t < v then some 0 else none

/-- One attempt of the edge scan at threshold t: x1 and x2 are the first and
last crossings of the central-row profile each offset by +1, y1 and y2 the
first and last crossings of the central-column profile each offset by -1; the
center is the midpoint in each axis. Any missing crossing is the exception
path (none). -/
def findCenterTry (px py : List ℚ) (t : ℚ) : Option (ℚ × ℚ) :=
  match firstAbove t px, firstAbove t py, lastAbove t px, lastAbove t py with
  | some x1, some y1, some x2, some y2 =>
    some ((((x1 : ℚ) + 1) + ((x2 : ℚ) + 1)) / 2, (((y1 : ℚ) - 1) + ((y2 : ℚ) - 1)) / 2)
  | _, _, _, _ => none

/-- Embedding of find_center: profiles through the central row and column,
an attempt at the given threshold (default 400 in the source), and on failure
a single retry at the hard-coded fallback threshold 300. -/
def find_center (im : ℕ → ℕ → ℚ) (rows cols : ℕ) (t : ℚ) : Option (ℚ × ℚ) :=
  let r0 := npRoundHalf rows
  let c0 := npRoundHalf cols
  let px := (List.range cols).map (fun j => im r0 j)
  let py := (List.range rows).map (fun i => im i c0)
  match findCenterTry px py t with
  | some c => some c
  | none => findCenterTry px py 300

/-- A synthetic image holding a uniform disc of radius R centered at pixel
(cx, cy): intensity hi on the closed disc, lo outside. The first image axis
is the row (y), the second the column (x). -/
def discImage (cx cy R : ℕ) (hi lo : ℚ) : ℕ → ℕ → ℚ :=
  fun i j => if ((j : ℤ) - cx) ^ 2 + ((i : ℤ) - cy) ^ 2 ≤ (R : ℤ) ^ 2 then hi else lo

/-! ## C5: calculate_spatial_scaling threshold cascade (ctp404.py
lines 209-243)

The two interpolated profiles are abstracted as the sample lists f1 and f2;
their numpy first differences df1 and df2, the cascade over the thresholds
40, 30, 20, 10, 5 (keeping the peaks of the last attempted threshold when no
attempt succeeds), the final length check, and the ValueError carrying the
peak counts and the derivative value ranges are translated literally. -/

/-- Peaks of one direction at threshold h, from the source: positive peaks of
the derivative and positive peaks of its negation, concatenated and sorted. -/
def scalingPeaksAt (df : List ℚ) (h : ℚ) : List ℕ :=
  List.insertionSort (· ≤ ·) (findPeaksQ df h ++ findPeaksQ (negL df) h)

/-- Success test of one cascade iteration: at least 2 peaks in each of the two
profile directions. -/
def scalingGoodAt (df1 df2 : List ℚ) (h : ℚ) : Bool :=
  decide (2 ≤ (scalingPeaksAt df1 h).length) && decide (2 ≤ (scalingPeaksAt df2 h).length)

/-- The cascade loop from the source: try each threshold in order, break at
the first success, and keep the most recently computed peak pair otherwise
(the accumulator starts as none, mirroring the peaks1 = peaks2 = None
initialization). -/
def scalingCascadeAux (df1 df2 : List ℚ) :
    List ℚ → Option (List ℕ × List ℕ) → Option (List ℕ × List ℕ)
  | [], acc => acc
  | h :: hs, _ =>
    let p := (scalingPeaksAt df1 h, scalingPeaksAt df2 h)
    if scalingGoodAt df1 df2 h then some p else scalingCascadeAux df1 df2 hs (some p)

/-- The threshold cascade of the source. -/
def scalingThresholds : List ℚ := [40, 30, 20, 10, 5]

/-- Diagnostic payload of the ValueError raised by calculate_spatial_scaling:
the peak counts found in each direction and the ranges of both derivative
profiles, exactly the data interpolated into the source message. -/
structure ScalingError where
  n1 : ℕ
  n2 : ℕ
  df1min : ℚ
  df1max : ℚ
  df2min : ℚ
  df2max : ℚ
  deriving Repr, DecidableEq

/-- The peak-finding stage of calculate_spatial_scaling: the cascade, then the
final check raising a descriptive ValueError when fewer than 2 peaks were
found in either direction even at the lowest threshold; the counts reported
are those of the last attempted threshold (0 when no peaks were ever
computed, mirroring the if-is-not-None guards of the message). -/
def calculate_spatial_scaling_peaks (f1 f2 : List ℚ) :
    Except ScalingError (List ℕ × List ℕ) :=
  let df1 := npDiff f1
  let df2 := npDiff f2
  match scalingCascadeAux df1 df2 scalingThresholds none with
  | none =>
    Except.error ⟨0, 0, listMinD df1, listMaxD df1, listMinD df2, listMaxD df2⟩
  | some (p1, p2) =>
    if p1.length < 2 ∨ p2.length < 2 then
      Except.error ⟨p1.length, p2.length, listMinD df1, listMaxD df1,
        listMinD df2, listMaxD df2⟩
    else Except.ok (p1, p2)

/-! ## C6: the adaptive threshold of get_MTF_single_pair (ctp528.py
lines 156-210)

The interpolated sector profile is abstracted as the sample list f1; its
derivative, the threshold loop starting at 50 and decrementing by 1 with
floor 10, the peak combination, the alternating local maxima and minima of
the raw profile between consecutive peaks, and the modulation formula are
translated literally. An unresolved sector returns modulation 0; the
function is total, mirroring the source, which raises no error on this
path. -/

/-- Sufficiency test of the while loop: at least npeaks_pair[1] peaks on both
the positive and the negated derivative at integer threshold h. -/
def mtfSufficient (df : List ℚ) (need : ℕ) (h : ℕ) : Bool :=
  decide (need ≤ (findPeaksQ df (h : ℚ)).length) &&
    decide (need ≤ (findPeaksQ (negL df) (h : ℚ)).length)

/-- The adaptive threshold loop from the source: succeed at the current
threshold if sufficient, give up (none) when the floor 10 is reached while
still insufficient, otherwise decrement and retry. The fuel argument only
bounds the recursion; it is chosen large enough never to run out. -/
def mtfThresholdLoopAux (df : List ℚ) (need : ℕ) : ℕ → ℕ → Option ℕ
  | 0, _ => none
  | fuel + 1, h =>
    if mtfSufficient df need h then some h
    else if h ≤ 10 then none
    else mtfThresholdLoopAux df need fuel (h - 1)

/-- The adaptive threshold loop started at threshold h (50 in the source). -/
def mtfThresholdLoop (df : List ℚ) (need : ℕ) (h : ℕ) : Option ℕ :=
  mtfThresholdLoopAux df need (h + 1) h

/-- The descending list of thresholds h0, h0 - 1, ..., 10 (for h0 at least
10); used to state the loop as a first-success search. -/
def mtfThresholdList (h0 : ℕ) : List ℕ :=
  (List.range (h0 - 9)).map (fun i => h0 - i)

/-- Alternating extremum scan from the source: for each consecutive pair of
sorted derivative-peak indices (a, b), take the argmax (for even pair index)
or argmin (for odd pair index) of the raw profile slice
f1[a - 1 : b + 1] and record the raw profile value at the recovered index
tmp + a - 1. Peak indices from findPeaksQ are at least 1, so the natural
subtraction a - 1 agrees with the Python arithmetic. -/
def altExtremesAux (f1 : List ℚ) : List ℕ → Bool → List ℚ × List ℚ
  | a :: b :: rest, isMax =>
    let sub := (f1.drop (a - 1)).take (b + 1 - (a - 1))
    let tmp := if isMax then argmaxList sub else argminList sub
    let v := f1.getD (tmp + a - 1) 0
    let (mx, mn) := altExtremesAux f1 (b :: rest) (!isMax)
    if isMax then (v :: mx, mn) else (mx, v :: mn)
  | _, _ => ([], [])

/-- Modulation of one line-pair sector, from get_MTF_single_pair: adaptive
threshold on the profile derivative; 0 when the threshold floor is reached;
otherwise the Michelson-style contrast of the alternating profile maxima and
minima between sorted derivative peaks (0 again if either list is empty). -/
def mtfSector (f1 : List ℚ) (need : ℕ) : ℚ :=
  let df := npDiff f1
  match mtfThresholdLoop df need 50 with
  | none => 0
  | some h =>
    let peaks1 := List.insertionSort (· ≤ ·) (findPeaksQ df (h : ℚ) ++ findPeaksQ (negL df) (h : ℚ))
    let (imax, imin) := altExtremesAux f1 peaks1 true
    if imax.length ≠ 0 ∧ imin.length ≠ 0 then
      (listMean imax - listMean imin) / (listMean imax + listMean imin)
    else 0

/-! ## C7: uniformity analyzer analyze_uniformity (ctp486.py lines 59-161)

The averaged image is a function from (row, column) to intensity with its
shape; the five box masks (with the clamping of _create_box_mask, including
its use of sz[0] for the x bounds and sz[1] for the y bounds exactly as in
the source), the per-region means in the REGIONS order centre, north, south,
east, west, and the uniformity percentage are translated literally. -/

/-- Python int() truncation toward zero of a rational. -/
def truncQ (q : ℚ) : ℤ := if 0 ≤ q then ⌊q⌋ else -⌊-q⌋

/-- Image as a total intensity function with a shape; the first index is the
row, the second the column. -/
structure ImageQ where
  rows : ℕ
  cols : ℕ
  px : ℤ → ℤ → ℚ

/-- Clamped box bounds of _create_box_mask: x bounds truncated and clamped to
[0, sz[0]], y bounds truncated and clamped to [0, sz[1]] (the source uses
sz[0] for x and sz[1] for y even though the mask rows number sz[0]). -/
def boxBounds (sz : ℕ × ℕ) (cx cy roiSz : ℚ) : ℤ × ℤ × ℤ × ℤ :=
  let xs := max 0 (truncQ (cx - roiSz / 2))
  let xe := min (sz.1 : ℤ) (truncQ (cx + roiSz / 2))
  let ys := max 0 (truncQ (cy - roiSz / 2))
  let ye := min (sz.2 : ℤ) (truncQ (cy + roiSz / 2))
  (xs, xe, ys, ye)

/-- Row-major list of the image values under the box mask: rows ys..ye-1,
columns xs..xe-1, matching im[mask == 1]. -/
def boxValues (im : ImageQ) (b : ℤ × ℤ × ℤ × ℤ) : List ℚ :=
  let (xs, xe, ys, ye) := b
  ((List.range (ye - ys).toNat).map (fun r =>
    (List.range (xe - xs).toNat).map (fun c => im.px (ys + r) (xs + c)))).flatten

/-- The five region means of analyze_uniformity, in the REGIONS order centre,
north, south, east, west: the centre box at the module center, the
peripheral boxes offset by roi_off in the -y, +y, +x, -x directions. -/
def ctp486RegionMeans (im : ImageQ) (sz : ℕ × ℕ) (space0 : ℚ) (center : ℚ × ℚ)
    (roiBoxSize roiOffset : ℚ) : List ℚ :=
  let roiSz := roiBoxSize / space0
  let roiOff := roiOffset / space0
  let mc := boxValues im (boxBounds sz center.1 center.2 roiSz)
  let mn := boxValues im (boxBounds sz center.1 (center.2 - roiOff) roiSz)
  let ms := boxValues im (boxBounds sz center.1 (center.2 + roiOff) roiSz)
  let me := boxValues im (boxBounds sz (center.1 + roiOff) center.2 roiSz)
  let mw := boxValues im (boxBounds sz (center.1 - roiOff) center.2 roiSz)
  [listMean mc, listMean mn, listMean ms, listMean me, listMean mw]

/-- The uniformity percentage of analyze_uniformity:
(max means - min means) / max means * 100. -/
def ctp486Uniformity (im : ImageQ) (sz : ℕ × ℕ) (space0 : ℚ) (center : ℚ × ℚ)
    (roiBoxSize roiOffset : ℚ) : ℚ :=
  let means := ctp486RegionMeans im sz space0 center roiBoxSize roiOffset
  (listMaxD means - listMinD means) / listMaxD means * 100

/-! ## C10: the MTF normalization stage of CTP528Module.analyze (ctp528.py
lines 86-104)

The nine per-sector modulation values are abstracted as the input list mtf;
the normalization mtf / max(mtf), the frequency axis lp, and the percentage
interpolation np.interp((0.8, 0.5, 0.3, 0.1), nMTF reversed, lp reversed)
are translated literally. IEEE NaN (which numpy produces for 0/0 without
raising) is modelled as none, and propagates through the interpolation: any
NaN among the interpolation abscissae makes the result NaN. The function is
total: no path raises. -/

/-- Division as numpy computes it elementwise, with the undefined 0-denominator
case (NaN or inf in floats) modelled as none. -/
def nanDiv (a b : ℚ) : Option ℚ := if b = 0 then none else some (a / b)

/-- Normalized MTF curve: each modulation divided by the maximum modulation. -/
def normalizeMTF (mtf : List ℚ) : List (Option ℚ) :=
  mtf.map (fun v => nanDiv v (listMaxD mtf))

/-- Piecewise-linear interpolation of np.interp on rational, well-defined
samples: clamp below the first and above the last abscissa, else interpolate
in the first bracketing interval. -/
def interpWellDefAux (x : ℚ) : List (ℚ × ℚ) → ℚ
  | [] => 0
  | [(_, fp)] => fp
  | (xp1, fp1) :: (xp2, fp2) :: rest =>
    if x < xp1 then fp1
    else if x ≤ xp2 then fp1 + (x - xp1) * (fp2 - fp1) / (xp2 - xp1)
    else interpWellDefAux x ((xp2, fp2) :: rest)

/-- np.interp over abscissae that may be NaN: with any NaN among the
abscissae the float result is not a well-defined number (none); otherwise
rational piecewise-linear interpolation. -/
def npInterp (x : ℚ) (xp : List (Option ℚ)) (fp : List ℚ) : Option ℚ :=
  if xp.any (fun v => v.isNone) then none
  else some (interpWellDefAux x ((xp.map (fun v => v.getD 0)).zip fp))

/-- Result record of the normalization stage of CTP528Module.analyze. -/
structure MTFResults where
  mtf80 : Option ℚ
  mtf50 : Option ℚ
  mtf30 : Option ℚ
  mtf10 : Option ℚ
  mtfArray : List (Option ℚ)
  lp : List ℚ
  deriving Repr, DecidableEq

/-- The normalization stage of CTP528Module.analyze, given the per-sector
modulation list: nMTF = mtf / max(mtf), lp = (1 .. len) / 10, and the four
percentage-MTF samples interpolated against the reversed curves. -/
def ctp528AnalyzePost (mtf : List ℚ) : MTFResults :=
  let nMTF := normalizeMTF mtf
  let lp := (List.range mtf.length).map (fun i => ((i : ℚ) + 1) / 10)
  let xp := nMTF.reverse
  let fp := lp.reverse
  { mtf80 := npInterp (8/10) xp fp
    mtf50 := npInterp (5/10) xp fp
    mtf30 := npInterp (3/10) xp fp
    mtf10 := npInterp (1/10) xp fp
    mtfArray := nMTF
    lp := lp }

/-! ## C9: CTP404Module.analyze (ctp404.py lines 29-301, with
calculate_slice_thickness from geometry.py lines 281-316)

The claim is round-trip determinism of the analyze operation, so the
embedding models the object state (the cached averaged image, the stored
results, the stored slice thickness) and the exact read/write pattern of the
three stages; the numeric kernels are translated literally, while the
transcendental primitives the source gets from numpy (cosine and sine of an
angle in degrees, square root, and the constant sin 23 degrees) are supplied
as a fixed context of rational-valued functions, since the claim quantifies
over all inputs and does not depend on their values. -/

/-- Transcendental primitives of the numeric kernels: cosd and sind model
np.cos and np.sin composed with np.radians, sqrtQ models np.sqrt, sin23
models np.sin(np.deg2rad(23)). -/
structure TrigCtx where
  cosd : ℚ → ℚ
  sind : ℚ → ℚ
  sqrtQ : ℚ → ℚ
  sin23 : ℚ

/-- One decoded DICOM slice: intensity function plus the metadata fields the
analyzer reads. -/
structure DicomSlice where
  pixelArray : ℤ → ℤ → ℚ
  Rows : ℕ
  Columns : ℕ
  PixelSpacing : ℚ × ℚ

/-- Immutable constructor inputs of CTP404Module. The slice stack is a total
function on integer indices, abstracting Python list indexing (the source
indexes idx - 1 and idx + 1 without bounds checks). -/
structure CTP404Inputs where
  dicomSet : ℤ → DicomSlice
  sliceIndex : ℤ
  center : ℚ × ℚ
  rotationOffset : ℚ

/-- numpy std of a value list: the square root of the mean squared deviation
from the mean. -/
def listStd (ctx : TrigCtx) (xs : List ℚ) : ℚ :=
  ctx.sqrtQ (listMean (xs.map (fun v => (v - listMean xs) ^ 2)))

/-- prepare_image: the mean of the target slice and its two neighbours. -/
def preparedImage (inp : CTP404Inputs) : ImageQ :=
  let d0 := inp.dicomSet inp.sliceIndex
  let d1 := inp.dicomSet (inp.sliceIndex + 1)
  let d2 := inp.dicomSet (inp.sliceIndex - 1)
  { rows := d0.Rows
    cols := d0.Columns
    px := fun i j => (d0.pixelArray i j + d1.pixelArray i j + d2.pixelArray i j) / 3 }

/-- Row-major values of the image inside the circular mask of
_create_circular_mask: pixels whose distance from (cx, cy) is at most the
radius, with the X grid along columns and the Y grid along rows. -/
def circleMaskValues (ctx : TrigCtx) (im : ImageQ) (c : ℚ × ℚ) (r : ℚ) : List ℚ :=
  ((List.range im.rows).map (fun (i : ℕ) =>
    ((List.range im.cols).filter (fun (j : ℕ) =>
      decide (ctx.sqrtQ (((j : ℚ) - c.1) ^ 2 + ((i : ℚ) - c.2) ^ 2) ≤ r))).map
        (fun (j : ℕ) => im.px (i : ℤ) (j : ℤ)))).flatten

/-- Material labels of the nine contrast ROIs, from the source. -/
def ctp404Materials : List String :=
  ["Delrin", "none", "Acrylic", "Air", "Polystyrene", "LDPE", "PMP", "Teflon", "Air2"]

/-- Angular offsets in degrees of the nine contrast ROIs, from the source. -/
def ctp404RoiAngles : List ℚ := [0, 30, 60, 90, 120, 180, -120, -60, -90]

/-- One stored contrast ROI record: [i + 1, material, mean, std]. -/
structure ROIResult where
  num : ℕ
  material : String
  mean : ℚ
  std : ℚ
  deriving Repr, DecidableEq

/-- The pure ROI statistics computation of analyze_contrast on a given
averaged image: each ROI center at ring radius 58.5 mm / spacing and angle
rotated by the measured offset, ROI radius 3.5 mm / spacing, mean and std of
the masked pixels. -/
def contrastResults (ctx : TrigCtx) (inp : CTP404Inputs) (im : ImageQ) : List ROIResult :=
  let space := (inp.dicomSet inp.sliceIndex).PixelSpacing
  let r := (35 / 10) / space.1
  let ringR := (585 / 10) / space.1
  (List.zip ctp404RoiAngles ctp404Materials).enum.map (fun p =>
    let i := p.1
    let angle := p.2.1
    let material := p.2.2
    let cx := ringR * ctx.cosd (angle + inp.rotationOffset) + inp.center.1
    let cy := ringR * ctx.sind (angle + inp.rotationOffset) + inp.center.2
    let vals := circleMaskValues ctx im (cx, cy) r
    ⟨i + 1, material, listMean vals, listStd ctx vals⟩)

/-- Scan of one side of a peak for the scipy prominence computation: walk
away from the peak while samples do not exceed the peak value, recording the
running minimum and its index (the base). -/
def promSide (x : ℤ → ℚ) (vpeak : ℚ) (lo hi : ℤ) (step : ℤ) :
    ℕ → ℤ → ℚ → ℤ → ℚ × ℤ
  | 0, _, m, b => (m, b)
  | fuel + 1, i, m, b =>
    if lo ≤ i ∧ i ≤ hi ∧ x i ≤ vpeak then
      let mb := if x i < m then (x i, i) else (m, b)
      promSide x vpeak lo hi step fuel (i + step) mb.1 mb.2
    else (m, b)

/-- scipy peak prominence of peak p in xs, with its left and right bases. -/
def peakProminence (xs : List ℚ) (p : ℕ) : ℚ × ℤ × ℤ :=
  let n := xs.length
  let x : ℤ → ℚ := fun i => xs.getD i.toNat 0
  let v := xs.getD p 0
  let lres := promSide x v 0 ((n : ℤ) - 1) (-1) (n + 1) (p : ℤ) v (p : ℤ)
  let rres := promSide x v 0 ((n : ℤ) - 1) 1 (n + 1) (p : ℤ) v (p : ℤ)
  (v - max lres.1 rres.1, lres.2, rres.2)

/-- Leftward scan of the scipy width computation: walk left from the peak
while above the evaluation height, stopping at the left base. -/
def widthScanLeft (x : ℤ → ℚ) (base : ℤ) (height : ℚ) : ℕ → ℤ → ℤ
  | 0, i => i
  | fuel + 1, i =>
    if base < i ∧ height < x i then widthScanLeft x base height fuel (i - 1) else i

/-- Rightward scan of the scipy width computation. -/
def widthScanRight (x : ℤ → ℚ) (base : ℤ) (height : ℚ) : ℕ → ℤ → ℤ
  | 0, i => i
  | fuel + 1, i =>
    if i < base ∧ height < x i then widthScanRight x base height fuel (i + 1) else i

/-- scipy peak_widths at rel_height 0.5 for a single peak: evaluation height
is the peak value minus half the prominence; the two crossings are found by
scanning toward the bases and linearly interpolated. -/
def peakWidth (xs : List ℚ) (p : ℕ) : ℚ :=
  let x : ℤ → ℚ := fun i => xs.getD i.toNat 0
  let pr := peakProminence xs p
  let height := xs.getD p 0 - pr.1 * (1 / 2)
  let li := widthScanLeft x pr.2.1 height xs.length (p : ℤ)
  let leftIp : ℚ :=
    if x li < height then (li : ℚ) + (height - x li) / (x (li + 1) - x li) else (li : ℚ)
  let ri := widthScanRight x pr.2.2 height xs.length (p : ℤ)
  let rightIp : ℚ :=
    if x ri < height then (ri : ℚ) - (height - x ri) / (x (ri - 1) - x ri) else (ri : ℚ)
  rightIp - leftIp

/-- Embedding of calculate_slice_thickness: the 60-row by 10-column wire-ramp
block at rows center.y - 30 .. center.y + 30 and columns center.x + 70 ..
center.x + 80, the column of maximal summed intensity, peaks above half the
block range, and the first peak FWHM scaled by sin 23 degrees and the pixel
spacing; 5.0 when no peak is found. -/
def calculate_slice_thickness (ctx : TrigCtx) (im : ℤ → ℤ → ℚ) (space : ℚ × ℚ)
    (center : ℚ × ℚ) : ℚ :=
  let c : ℤ × ℤ := (truncQ center.1, truncQ center.2)
  let profs : List (List ℚ) := (List.range 60).map (fun r =>
    (List.range 10).map (fun k => im (c.2 - 30 + r) (c.1 + 70 + k)))
  let colSums : List ℚ := (List.range 10).map (fun k =>
    ((List.range 60).map (fun r => im (c.2 - 30 + r) (c.1 + 70 + k))).sum)
  let idxProf := argmaxList colSums
  let profile : List ℚ := (List.range 60).map (fun r => im (c.2 - 30 + r) (c.1 + 70 + idxProf))
  let allVals := profs.flatten
  let hthr := (listMaxD allVals + listMinD allVals) / 2
  match findPeaksQ profile hthr with
  | [] => 5
  | p :: _ => peakWidth profile p * ctx.sin23 * space.1

/-- Mutable object state of CTP404Module that the analyze path reads or
writes: the cached averaged image, the stored ROI results, and the stored
slice thickness. -/
structure CTP404State where
  averagedImage : Option ImageQ
  results : List ROIResult
  sliceThickness : Option ℚ

/-- The image analyze_contrast works on: the cached averaged image when
present, else the freshly prepared 3-slice average (which prepare_image also
stores). -/
def effImage (inp : CTP404Inputs) (s : CTP404State) : ImageQ :=
  match s.averagedImage with
  | some im => im
  | none => preparedImage inp

/-- analyze_contrast as a state transformer: ensure the averaged image is
cached, recompute the ROI statistics from it, store and return them. -/
def ctp404AnalyzeContrast (ctx : TrigCtx) (inp : CTP404Inputs) (s : CTP404State) :
    List ROIResult × CTP404State :=
  let im := effImage inp s
  let res := contrastResults ctx inp im
  (res, { s with averagedImage := some im, results := res })

/-- calculate_low_contrast_visibility as a state transformer: run
analyze_contrast only when no results are stored, then
3.25 (std4 + std5) / (mean4 - mean5) from results 4 and 5. -/
def ctp404Lcv (ctx : TrigCtx) (inp : CTP404Inputs) (s : CTP404State) : ℚ × CTP404State :=
  let s1 := if s.results.isEmpty then (ctp404AnalyzeContrast ctx inp s).2 else s
  let p := s1.results.getD 4 ⟨0, "", 0, 0⟩
  let l := s1.results.getD 5 ⟨0, "", 0, 0⟩
  ((325 / 100) * (p.std + l.std) / (p.mean - l.mean), s1)

/-- measure_slice_thickness as a state transformer: thickness from the raw
(non-averaged) target slice, stored in the state. -/
def ctp404MeasureThickness (ctx : TrigCtx) (inp : CTP404Inputs) (s : CTP404State) :
    ℚ × CTP404State :=
  let d0 := inp.dicomSet inp.sliceIndex
  let th := calculate_slice_thickness ctx d0.pixelArray d0.PixelSpacing inp.center
  (th, { s with sliceThickness := some th })

/-- The result record returned by CTP404Module.analyze. -/
structure CTP404Output where
  contrastRois : List ROIResult
  lowContrastVisibility : ℚ
  sliceThicknessMm : ℚ
  deriving Repr, DecidableEq

/-- CTP404Module.analyze: contrast statistics, then low-contrast visibility,
then slice thickness, threading the object state through the three stages. -/
def ctp404Analyze (ctx : TrigCtx) (inp : CTP404Inputs) (s0 : CTP404State) :
    CTP404State × CTP404Output :=
  let c1 := ctp404AnalyzeContrast ctx inp s0
  let c2 := ctp404Lcv ctx inp c1.2
  let c3 := ctp404MeasureThickness ctx inp c2.2
  (c3.2, ⟨c1.1, c2.1, c3.1⟩)

/-! ## Helper lemmas -/

/-- A fold of max over a list of copies of m starting at m stays m. -/
theorem foldl_max_const (m : ℚ) (l : List ℚ) (h : ∀ v ∈ l, v = m) :
    l.foldl max m = m := by
  induction l with
  | nil => rfl
  | cons v vs ih =>
    have hv : v = m := h v (by simp)
    simp only [List.foldl_cons, hv, max_self]
    exact ih (fun w hw => h w (by simp [hw]))

/-- A fold of min over a list of copies of m starting at m stays m. -/
theorem foldl_min_const (m : ℚ) (l : List ℚ) (h : ∀ v ∈ l, v = m) :
    l.foldl min m = m := by
  induction l with
  | nil => rfl
  | cons v vs ih =>
    have hv : v = m := h v (by simp)
    simp only [List.foldl_cons, hv, min_self]
    exact ih (fun w hw => h w (by simp [hw]))

/-- listMaxD of a nonempty constant list is its value. -/
theorem listMaxD_const (m : ℚ) (l : List ℚ) (hne : l ≠ []) (h : ∀ v ∈ l, v = m) :
    listMaxD l = m := by
  cases l with
  | nil => exact absurd rfl hne
  | cons v vs =>
    have hv : v = m := h v (by simp)
    simp only [listMaxD, hv]
    exact foldl_max_const m vs (fun w hw => h w (by simp [hw]))

/-- listMinD of a nonempty constant list is its value. -/
theorem listMinD_const (m : ℚ) (l : List ℚ) (hne : l ≠ []) (h : ∀ v ∈ l, v = m) :
    listMinD l = m := by
  cases l with
  | nil => exact absurd rfl hne
  | cons v vs =>
    have hv : v = m := h v (by simp)
    simp only [listMinD, hv]
    exact foldl_min_const m vs (fun w hw => h w (by simp [hw]))

/-- firstAbove returns the first index whose value is strictly above t. -/
theorem firstAbove_spec (t : ℚ) (xs : List ℚ) (i : ℕ) (hlen : i < xs.length)
    (hval : t < xs.getD i 0) (hbefore : ∀ j, j < i → xs.getD j 0 ≤ t) :
    firstAbove t xs = some i := by
  induction xs generalizing i with
  | nil => simp at hlen
  | cons v vs ih =>
    by_cases hv : t < v
    · have hi0 : i = 0 := by
        by_contra hne
        have := hbefore 0 (Nat.pos_of_ne_zero hne)
        simp only [List.getD_cons_zero] at this
        exact absurd hv (not_lt.mpr this)
      subst hi0
      simp [firstAbove, hv]
    · have hi0 : i ≠ 0 := by
        intro h0
        subst h0
        simp only [List.getD_cons_zero] at hval
        exact hv hval
      obtain ⟨i', rfl⟩ := Nat.exists_eq_succ_of_ne_zero hi0
      have hrec : firstAbove t vs = some i' := by
        apply ih
        · simpa using hlen
        · simpa using hval
        · intro j hj
          have := hbefore (j + 1) (by omega)
          simpa using this
      simp [firstAbove, hv, hrec]

/-- lastAbove is none when every value is at most t. -/
theorem lastAbove_none (t : ℚ) (xs : List ℚ) (h : ∀ v ∈ xs, v ≤ t) :
    lastAbove t xs = none := by
  induction xs with
  | nil => rfl
  | cons v vs ih =>
    have hrec : lastAbove t vs = none := ih (fun w hw => h w (by simp [hw]))
    have hv : ¬ t < v := not_lt.mpr (h v (by simp))
    simp [lastAbove, hrec, hv]

/-- lastAbove returns the last index whose value is strictly above t. -/
theorem lastAbove_spec (t : ℚ) (xs : List ℚ) (i : ℕ) (hlen : i < xs.length)
    (hval : t < xs.getD i 0) (hafter : ∀ j, i < j → j < xs.length → xs.getD j 0 ≤ t) :
    lastAbove t xs = some i := by
  induction xs generalizing i with
  | nil => simp at hlen
  | cons v vs ih =>
    cases i with
    | zero =>
      have hrest : lastAbove t vs = none := by
        apply lastAbove_none
        intro w hw
        obtain ⟨j, hj, rfl⟩ := List.mem_iff_getElem.mp hw
        have := hafter (j + 1) (by omega) (by simpa using hj)
        simpa [List.getD, List.getElem?_eq_getElem hj] using this
      have hv : t < v := by simpa using hval
      simp [lastAbove, hrest, hv]
    | succ i' =>
      have hrec : lastAbove t vs = some i' := by
        apply ih
        · simpa using hlen
        · simpa using hval
        · intro j hj hjlen
          have := hafter (j + 1) (by omega) (by simpa using hjlen)
          simpa using this
      simp [lastAbove, hrec]

/-- getD through a profile built by mapping over an index range. -/
theorem getD_range_map (f : ℕ → ℚ) (n j : ℕ) (h : j < n) :
    ((List.range n).map f).getD j 0 = f j := by
  simp [List.getD, List.getElem?_map, List.getElem?_range h]

/-! ## C1 theorems -/

/-- C1 counterexample: a 70-slice stack in which no slice matches the
line-pair signature (every concatenated derivative profile is empty, so no
slice has more than 50 values above 100), yet find_slice_ctp528 does not
report any error: it returns the expected slice index 60. This refutes the
claim that the locator reports a fatal module-not-found error rather than
returning a slice index. -/
theorem find_slice_ctp528_claim_counterexample :
    (∀ i, i < 69 → matchesCTP528 flatStack i = false) ∧
    (∀ e, find_slice_ctp528 flatStack 70 60 ≠ Except.error e) := by
  constructor
  · intro i _
    rfl
  · intro e
    have h : find_slice_ctp528 flatStack 70 60 = Except.ok 60 := by rfl
    simp [h]

/-- C1 (amended): when no slice of the stack matches the line-pair signature,
find_slice_ctp528 does not raise; it logs an error message and returns the
expected slice index min expected (n - 1) as a fallback. -/
theorem find_slice_ctp528_no_match_returns_fallback (d : ℕ → List ℚ) (n expected : ℕ)
    (h : ∀ i, i < n - 1 → matchesCTP528 d i = false) :
    find_slice_ctp528 d n expected = Except.ok (min expected (n - 1)) := by
  unfold find_slice_ctp528
  have h1 : ∀ z : ℕ, (ctp528SearchOrder z).find?
      (fun i => decide (0 ≤ i) && decide (i < (n : ℤ) - 1) && matchesCTP528 d i.toNat) = none := by
    intro z
    apply List.find?_eq_none.mpr
    intro x _
    simp only [Bool.and_eq_true, decide_eq_true_eq, not_and]
    intro hx
    obtain ⟨hx0, hxn⟩ := hx
    have hlt : x.toNat < n - 1 := by omega
    simp [h x.toNat hlt]
  have h2 : (List.range (n - 1)).find? (fun i => matchesCTP528 d i) = none := by
    apply List.find?_eq_none.mpr
    intro x hx
    simp [h x (List.mem_range.mp hx)]
  simp [h1, h2]

/-- C1 witness: the fallback theorem applied to the concrete 70-slice stack
with empty derivative profiles returns the expected index 60. -/
theorem find_slice_ctp528_fallback_witness :
    (∀ i, i < 69 → matchesCTP528 flatStack i = false) ∧
    find_slice_ctp528 flatStack 70 60 = Except.ok 60 :=
  ⟨fun _ _ => rfl, by
    have := find_slice_ctp528_no_match_returns_fallback flatStack 70 60 (fun _ _ => rfl)
    simpa using this⟩

/-! ## C2 theorems -/

/-- C2 counterexample: at final points ct = (1, 0), cb = (0, 1) the
coordinate differences are dx = 1, dy = -1; the source formula
-arctan(dx/dy) in degrees gives 45 while the spec formula -atan2(dx, dy) in
degrees gives -135, so the returned angle does not agree with the
two-argument arctangent for this sign combination. -/
theorem find_rotation_angle_atan2_counterexample :
    rotationAngleFromPoints (1, 0) (0, 1) ≠ specRotationAngle (1, 0) (0, 1) := by
  have hq : ((1 : ℝ) - 0) / (0 - 1) = -1 := by norm_num
  have h1 : rotationAngleFromPoints (1, 0) (0, 1) = 45 := by
    unfold rotationAngleFromPoints
    simp only [hq, Real.arctan_neg, Real.arctan_one]
    field_simp
    ring
  have h2 : specRotationAngle (1, 0) (0, 1) = -135 := by
    unfold specRotationAngle atan2
    rw [if_neg (by norm_num), if_pos (by norm_num)]
    simp only [hq, Real.arctan_neg, Real.arctan_one]
    field_simp
    ring
  rw [h1, h2]
  norm_num

/-- C2 (amended): the source rotation angle -arctan(dx/dy) in degrees agrees
with the spec formula -atan2(dx, dy) in degrees exactly on runs whose final
points satisfy dy > 0; the counterexample shows disagreement for dy < 0. -/
theorem find_rotation_angle_matches_atan2_when_dy_pos (ct cb : ℝ × ℝ)
    (h : cb.2 < ct.2) :
    rotationAngleFromPoints ct cb = specRotationAngle ct cb := by
  unfold rotationAngleFromPoints specRotationAngle atan2
  rw [if_pos (by linarith : (0 : ℝ) < ct.2 - cb.2)]

/-- C2 witness: at ct = (0, 1), cb = (0, 0) the hypothesis dy = 1 > 0 holds
and the source angle equals the spec angle. -/
theorem find_rotation_angle_atan2_witness :
    ((0 : ℝ), (0 : ℝ)).2 < ((0 : ℝ), (1 : ℝ)).2 ∧
    rotationAngleFromPoints (0, 1) (0, 0) = specRotationAngle (0, 1) (0, 0) :=
  ⟨by norm_num, find_rotation_angle_matches_atan2_when_dy_pos (0, 1) (0, 0) (by norm_num)⟩

/-! ## C3 theorem -/

/-- C3: evaluation of the slice-selection logic at the failing input. When
the maximum mean sits at window position 0 (slice z - 2), Python evaluates
idx[tmp - 1] as idx[-1] and sets position 4, so no IndexError occurs, the
dedicated tmp = 0 handler is dead code, and the averaged window positions
are 0, 1 and 4 (slices z - 2, z - 1 and z + 2): three slices, one of which
is not adjacent to the chosen candidate, where the claim and the code's own
comments require exactly the two slices z - 2 and z - 1. -/
theorem select_ctp528_slices_boundary_bug :
    argmaxList [5, 1, 1, 1, 1] = 0 ∧
    selectedCtp528Positions [5, 1, 1, 1, 1] = some [0, 1, 4] ∧
    ctp528SliceIndicator 4 = some [false, false, false, true, true] ∧
    ctp528SliceIndicator 2 = some [false, true, true, true, false] := by
  refine ⟨by decide, by decide, by decide, by decide⟩

/-! ## C4 theorems -/

/-- C4 helper: on the synthetic disc image, membership of a row-r0 pixel in
the disc is equivalent to a natAbs bound against the truncated square root of
the remaining squared radius. -/
theorem disc_row_membership (cx cy R r0 : ℕ) (j : ℕ)
    (hrow : ((r0 : ℤ) - cy) ^ 2 ≤ (R : ℤ) ^ 2) :
    (((j : ℤ) - cx) ^ 2 + ((r0 : ℤ) - cy) ^ 2 ≤ (R : ℤ) ^ 2) ↔
      ((j : ℤ) - cx).natAbs ≤ Nat.sqrt (((R : ℤ) ^ 2 - ((r0 : ℤ) - cy) ^ 2).toNat) := by
  have hnn : (0 : ℤ) ≤ (R : ℤ) ^ 2 - ((r0 : ℤ) - cy) ^ 2 := by linarith
  set a := ((R : ℤ) ^ 2 - ((r0 : ℤ) - cy) ^ 2).toNat with ha
  have hcast : ((a : ℤ)) = (R : ℤ) ^ 2 - ((r0 : ℤ) - cy) ^ 2 := Int.toNat_of_nonneg hnn
  have habs : ((((j : ℤ) - cx).natAbs * ((j : ℤ) - cx).natAbs : ℕ) : ℤ) =
      ((j : ℤ) - cx) * ((j : ℤ) - cx) := by exact_mod_cast Int.natAbs_mul_self
  constructor
  · intro h
    rw [Nat.le_sqrt]
    have h2 : ((j : ℤ) - cx) ^ 2 ≤ (a : ℤ) := by linarith [hcast]
    have : ((((j : ℤ) - cx).natAbs * ((j : ℤ) - cx).natAbs : ℕ) : ℤ) ≤ (a : ℤ) := by
      rw [habs]; nlinarith [h2]
    exact_mod_cast this
  · intro h
    have h2 : ((j : ℤ) - cx).natAbs * ((j : ℤ) - cx).natAbs ≤ a := by
      calc ((j : ℤ) - cx).natAbs * ((j : ℤ) - cx).natAbs
          ≤ Nat.sqrt a * Nat.sqrt a := Nat.mul_le_mul h h
        _ ≤ a := Nat.sqrt_le a
    have h3 : ((j : ℤ) - cx) * ((j : ℤ) - cx) ≤ (a : ℤ) := by
      rw [← habs]; exact_mod_cast h2
    nlinarith [h3, hcast]

/-- C4 helper: first and last crossings of a disc profile. The profile is
the map of a disc-membership indicator over an index range; with the values
hi above and lo at most the threshold, and the disc span cx - k .. cx + k
inside the range, the crossings sit at cx - k and cx + k. -/
theorem disc_profile_crossings (t hi lo : ℚ) (hlo : lo ≤ t) (hhi : t < hi)
    (cx k n : ℕ) (inDisc : ℕ → Prop) [DecidablePred inDisc]
    (hiff : ∀ j, inDisc j ↔ ((j : ℤ) - cx).natAbs ≤ k)
    (hk1 : k ≤ cx) (hk2 : cx + k < n) :
    firstAbove t ((List.range n).map (fun j => if inDisc j then hi else lo)) = some (cx - k) ∧
    lastAbove t ((List.range n).map (fun j => if inDisc j then hi else lo)) = some (cx + k) := by
  have hlen : ((List.range n).map (fun j => if inDisc j then hi else lo)).length = n := by
    simp
  have hgd : ∀ j, j < n →
      ((List.range n).map (fun j => if inDisc j then hi else lo)).getD j 0 =
        if inDisc j then hi else lo := fun j hj => getD_range_map _ n j hj
  have hin : ∀ j : ℕ, cx - k ≤ j → j ≤ cx + k → inDisc j := by
    intro j h1 h2
    rw [hiff]
    omega
  have hout : ∀ j : ℕ, (j < cx - k ∨ cx + k < j) → ¬ inDisc j := by
    intro j hj
    rw [hiff]
    omega
  constructor
  · apply firstAbove_spec
    · omega
    · rw [hgd _ (by omega), if_pos (hin _ le_rfl (by omega))]
      exact hhi
    · intro j hj
      rw [hgd _ (by omega), if_neg (hout _ (Or.inl hj))]
      exact hlo
  · apply lastAbove_spec
    · omega
    · rw [hgd _ (by omega), if_pos (hin _ (by omega) le_rfl)]
      exact hhi
    · intro j hj hjn
      rw [hlen] at hjn
      rw [hgd _ hjn, if_neg (hout _ (Or.inr hj))]
      exact hlo

/-- C4 counterexample: a 64 x 64 image with a uniform disc of radius 20 (so
R is at least 20) centered at (10, 10), inside the image bounds, with disc
intensity 1000 above the threshold 400 and background 0 below it. The
central row and central column (index 32) pass more than 20 pixels away from
the disc center, so neither profile crosses the disc; both threshold
attempts (400, then the fallback 300) fail and find_center returns no center
at all, refuting the claim that it returns a center within 1 pixel of
(cx, cy) for every center inside the image bounds. -/
theorem find_center_offcenter_disc_counterexample :
    (20 ≤ 20 ∧ 10 < 64 ∧ 10 < 64) ∧
    find_center (discImage 10 10 20 1000 0) 64 64 400 = none := by
  constructor
  · decide
  · rfl

/-- C4 helper: findCenterTry when all four crossings exist. -/
theorem findCenterTry_some (px py : List ℚ) (t : ℚ) (x1 y1 x2 y2 : ℕ)
    (h1 : firstAbove t px = some x1) (h2 : firstAbove t py = some y1)
    (h3 : lastAbove t px = some x2) (h4 : lastAbove t py = some y2) :
    findCenterTry px py t =
      some ((((x1 : ℚ) + 1) + ((x2 : ℚ) + 1)) / 2,
        (((y1 : ℚ) - 1) + ((y2 : ℚ) - 1)) / 2) := by
  simp [findCenterTry, h1, h2, h3, h4]

/-- C4 (amended): for a synthetic image containing a uniform disc of radius
R centered at an integer pixel (cx, cy), with disc intensity above the
threshold and background at most it, and such that the central row r0 and
central column c0 both cross the disc with the crossed disc span lying
strictly inside the image, find_center returns exactly
(cx + 1, cy - 1), which is within 1 pixel of (cx, cy) in each axis. -/
theorem find_center_disc_within_one_pixel
    (rows cols cx cy R : ℕ) (hi lo t : ℚ) (hlo : lo ≤ t) (hhi : t < hi)
    (hrow : ((npRoundHalf rows : ℤ) - cy) ^ 2 ≤ (R : ℤ) ^ 2)
    (hcol : ((npRoundHalf cols : ℤ) - cx) ^ 2 ≤ (R : ℤ) ^ 2)
    (hk1 : Nat.sqrt (((R : ℤ) ^ 2 - ((npRoundHalf rows : ℤ) - cy) ^ 2).toNat) ≤ cx)
    (hk2 : cx + Nat.sqrt (((R : ℤ) ^ 2 - ((npRoundHalf rows : ℤ) - cy) ^ 2).toNat) < cols)
    (hm1 : Nat.sqrt (((R : ℤ) ^ 2 - ((npRoundHalf cols : ℤ) - cx) ^ 2).toNat) ≤ cy)
    (hm2 : cy + Nat.sqrt (((R : ℤ) ^ 2 - ((npRoundHalf cols : ℤ) - cx) ^ 2).toNat) < rows) :
    find_center (discImage cx cy R hi lo) rows cols t = some ((cx : ℚ) + 1, (cy : ℚ) - 1) ∧
    |((cx : ℚ) + 1) - (cx : ℚ)| ≤ 1 ∧ |((cy : ℚ) - 1) - (cy : ℚ)| ≤ 1 := by
  have hx : firstAbove t ((List.range cols).map
        (fun j => discImage cx cy R hi lo (npRoundHalf rows) j)) =
        some (cx - Nat.sqrt (((R : ℤ) ^ 2 - ((npRoundHalf rows : ℤ) - cy) ^ 2).toNat)) ∧
      lastAbove t ((List.range cols).map
        (fun j => discImage cx cy R hi lo (npRoundHalf rows) j)) =
        some (cx + Nat.sqrt (((R : ℤ) ^ 2 - ((npRoundHalf rows : ℤ) - cy) ^ 2).toNat)) :=
    disc_profile_crossings t hi lo hlo hhi cx _ cols
      (fun j => ((j : ℤ) - cx) ^ 2 + ((npRoundHalf rows : ℤ) - cy) ^ 2 ≤ (R : ℤ) ^ 2)
      (fun j => disc_row_membership cx cy R (npRoundHalf rows) j hrow) hk1 hk2
  have hy : firstAbove t ((List.range rows).map
        (fun i => discImage cx cy R hi lo i (npRoundHalf cols))) =
        some (cy - Nat.sqrt (((R : ℤ) ^ 2 - ((npRoundHalf cols : ℤ) - cx) ^ 2).toNat)) ∧
      lastAbove t ((List.range rows).map
        (fun i => discImage cx cy R hi lo i (npRoundHalf cols))) =
        some (cy + Nat.sqrt (((R : ℤ) ^ 2 - ((npRoundHalf cols : ℤ) - cx) ^ 2).toNat)) :=
    disc_profile_crossings t hi lo hlo hhi cy _ rows
      (fun i => ((npRoundHalf cols : ℤ) - cx) ^ 2 + ((i : ℤ) - cy) ^ 2 ≤ (R : ℤ) ^ 2)
      (fun i => by
        have h := disc_row_membership cy cx R (npRoundHalf cols) i hcol
        constructor
        · intro hh
          exact h.mp (by linarith)
        · intro hh
          linarith [h.mpr hh]) hm1 hm2
  have hTry := findCenterTry_some _ _ t _ _ _ _ hx.1 hy.1 hx.2 hy.2
  have hcenter : find_center (discImage cx cy R hi lo) rows cols t =
      some ((cx : ℚ) + 1, (cy : ℚ) - 1) := by
    simp only [find_center, hTry, Option.some.injEq, Prod.mk.injEq]
    constructor
    · push_cast [hk1]
      ring
    · push_cast [hm1]
      ring
  refine ⟨hcenter, by norm_num, by norm_num⟩

/-- C4 witness: the amended theorem applied to a 64 x 64 image with a disc
of radius 20 centered at (32, 32), intensity 1000 over background 0 at
threshold 400; the returned center is (33, 31). -/
theorem find_center_disc_witness :
    ((0 : ℚ) ≤ 400 ∧ (400 : ℚ) < 1000) ∧
    find_center (discImage 32 32 20 1000 0) 64 64 400 = some (33, 31) :=
  ⟨⟨by norm_num, by norm_num⟩, by
    have h32 : npRoundHalf 64 = 32 := by decide
    have harg : (((20 : ℕ) : ℤ) ^ 2 - ((npRoundHalf 64 : ℤ) - ((32 : ℕ) : ℤ)) ^ 2).toNat = 400 := by
      rw [h32]
      norm_num
      rfl
    have hsq : Nat.sqrt (((20 : ℕ) : ℤ) ^ 2 - ((npRoundHalf 64 : ℤ) - ((32 : ℕ) : ℤ)) ^ 2).toNat = 20 := by
      rw [harg, show (400 : ℕ) = 20 * 20 by norm_num]
      exact Nat.sqrt_eq 20
    have := (find_center_disc_within_one_pixel 64 64 32 32 20 1000 0 400
      (by norm_num) (by norm_num) (by rw [h32]; norm_num) (by rw [h32]; norm_num)
      (by rw [hsq]; norm_num) (by rw [hsq]; norm_num) (by rw [hsq]; norm_num)
      (by rw [hsq]; norm_num)).1
    rw [this]
    norm_num⟩

/-! ## C5 theorems -/

/-- C5 helper: the cascade loop is a first-success search; when every
threshold fails it keeps the peaks of the last threshold tried. -/
theorem scalingCascadeAux_spec (df1 df2 : List ℚ) (hs : List ℚ) :
    ∀ acc : Option (List ℕ × List ℕ), hs ≠ [] →
      scalingCascadeAux df1 df2 hs acc =
        match hs.find? (scalingGoodAt df1 df2) with
        | some h => some (scalingPeaksAt df1 h, scalingPeaksAt df2 h)
        | none => some (scalingPeaksAt df1 (hs.getLastD 0), scalingPeaksAt df2 (hs.getLastD 0)) := by
  induction hs with
  | nil => intro acc hne; exact absurd rfl hne
  | cons h rest ih =>
    intro acc _
    by_cases hg : scalingGoodAt df1 df2 h = true
    · simp [scalingCascadeAux, hg, List.find?]
    · have hgf : scalingGoodAt df1 df2 h = false := by simpa using hg
      cases rest with
      | nil => simp [scalingCascadeAux, hgf, List.find?]
      | cons h2 rest2 =>
        rw [show scalingCascadeAux df1 df2 (h :: h2 :: rest2) acc =
            scalingCascadeAux df1 df2 (h2 :: rest2)
              (some (scalingPeaksAt df1 h, scalingPeaksAt df2 h)) from by
          simp [scalingCascadeAux, hgf]]
        rw [ih _ (by simp)]
        have hfind : (h :: h2 :: rest2).find? (scalingGoodAt df1 df2) =
            (h2 :: rest2).find? (scalingGoodAt df1 df2) := by
          simp [List.find?, hgf]
        rw [hfind]
        rfl

/-- C5: the spatial-scaling peak stage tries the thresholds 40, 30, 20, 10,
5 in order and stops at the first one yielding at least 2 peaks in each of
the two profile directions; when no threshold succeeds it returns (raises)
the descriptive error carrying the found peak counts (those of the last
threshold 5) and the ranges of both derivative profiles, and never returns
an ok value in that case. -/
theorem spatial_scaling_cascade_first_success_or_error (f1 f2 : List ℚ) :
    (∀ h, scalingThresholds.find? (scalingGoodAt (npDiff f1) (npDiff f2)) = some h →
      calculate_spatial_scaling_peaks f1 f2 =
        Except.ok (scalingPeaksAt (npDiff f1) h, scalingPeaksAt (npDiff f2) h)) ∧
    (scalingThresholds.find? (scalingGoodAt (npDiff f1) (npDiff f2)) = none →
      calculate_spatial_scaling_peaks f1 f2 =
        Except.error ⟨(scalingPeaksAt (npDiff f1) 5).length, (scalingPeaksAt (npDiff f2) 5).length,
          listMinD (npDiff f1), listMaxD (npDiff f1),
          listMinD (npDiff f2), listMaxD (npDiff f2)⟩) := by
  have hspec := scalingCascadeAux_spec (npDiff f1) (npDiff f2) scalingThresholds none
    (by simp [scalingThresholds])
  constructor
  · intro h hfind
    have hgood : scalingGoodAt (npDiff f1) (npDiff f2) h = true := List.find?_some hfind
    have hlen : 2 ≤ (scalingPeaksAt (npDiff f1) h).length ∧
        2 ≤ (scalingPeaksAt (npDiff f2) h).length := by
      simpa [scalingGoodAt] using hgood
    simp only [calculate_spatial_scaling_peaks, hspec, hfind]
    rw [if_neg (by omega)]
  · intro hfind
    have h5 : scalingGoodAt (npDiff f1) (npDiff f2) 5 = false := by
      have := List.find?_eq_none.mp hfind 5 (by simp [scalingThresholds])
      simpa using this
    have hlen : ¬ (2 ≤ (scalingPeaksAt (npDiff f1) 5).length ∧
        2 ≤ (scalingPeaksAt (npDiff f2) 5).length) := by
      simpa [scalingGoodAt] using h5
    have hlast : scalingThresholds.getLastD 0 = 5 := by rfl
    simp only [calculate_spatial_scaling_peaks, hspec, hfind, hlast]
    rw [if_pos (by omega)]

/-- C5 witness: on flat profiles (all samples 0) no threshold of the cascade
finds any peak, and the stage returns the descriptive error with both peak
counts 0 and both derivative ranges [0, 0]. -/
theorem spatial_scaling_cascade_witness :
    scalingThresholds.find?
      (scalingGoodAt (npDiff [0, 0, 0, 0, 0]) (npDiff [0, 0, 0, 0, 0])) = none ∧
    calculate_spatial_scaling_peaks [0, 0, 0, 0, 0] [0, 0, 0, 0, 0] =
      Except.error ⟨0, 0, 0, 0, 0, 0⟩ := by
  have hdf : npDiff ([0, 0, 0, 0, 0] : List ℚ) = [0, 0, 0, 0] := by
    norm_num [npDiff, List.zipWith]
  have hfind : scalingThresholds.find?
      (scalingGoodAt (npDiff [0, 0, 0, 0, 0]) (npDiff [0, 0, 0, 0, 0])) = none := by
    rw [hdf]
    decide
  refine ⟨hfind, ?_⟩
  rw [(spatial_scaling_cascade_first_success_or_error [0, 0, 0, 0, 0] [0, 0, 0, 0, 0]).2 hfind]
  rw [hdf]
  congr 1

/-! ## C6 theorems -/

/-- C6 helper: the descending threshold list steps off one element at a
time. -/
theorem mtfThresholdList_succ (h : ℕ) (hh : 9 ≤ h) :
    mtfThresholdList (h + 1) = (h + 1) :: mtfThresholdList h := by
  unfold mtfThresholdList
  rw [show h + 1 - 9 = (h - 9) + 1 by omega, List.range_succ_eq_map]
  simp only [List.map_cons, List.map_map, Nat.sub_zero]
  have hfun : ((fun i => h + 1 - i) ∘ (· + 1)) = (fun i : ℕ => h - i) := by
    funext i
    simp only [Function.comp_apply]
    omega
  rw [hfun]

/-- C6 helper: the adaptive threshold loop equals a first-success search over
the descending list of thresholds down to the floor 10. -/
theorem mtfThresholdLoopAux_spec (df : List ℚ) (need : ℕ) :
    ∀ fuel h, 10 ≤ h → h < 10 + fuel →
      mtfThresholdLoopAux df need fuel h =
        (mtfThresholdList h).find? (mtfSufficient df need) := by
  intro fuel
  induction fuel with
  | zero => intro h h10 hlt; omega
  | succ fuel ih =>
    intro h h10 hlt
    obtain ⟨h', rfl⟩ : ∃ h', h = h' + 1 := ⟨h - 1, by omega⟩
    rw [mtfThresholdList_succ h' (by omega)]
    by_cases hs : mtfSufficient df need (h' + 1) = true
    · simp [mtfThresholdLoopAux, hs, List.find?]
    · have hsf : mtfSufficient df need (h' + 1) = false := by simpa using hs
      by_cases h10' : h' + 1 ≤ 10
      · have h9 : h' = 9 := by omega
        subst h9
        have hnil : mtfThresholdList 9 = [] := rfl
        simp [mtfThresholdLoopAux, hsf, List.find?, hnil]
      · rw [show mtfThresholdLoopAux df need (fuel + 1) (h' + 1) =
            mtfThresholdLoopAux df need fuel h' from by
          simp [mtfThresholdLoopAux, hsf, h10']]
        rw [show ((h' + 1) :: mtfThresholdList h').find? (mtfSufficient df need) =
            (mtfThresholdList h').find? (mtfSufficient df need) from by
          simp [List.find?, hsf]]
        exact ih h' (by omega) (by omega)

/-- C6: the per-sector resolution measurement starts at derivative-peak
threshold 50 and decreases by 1 until the expected peak count is met on both
the positive and the negative derivative polarity: the loop result is the
first sufficient threshold of the descending list 50, 49, ..., 10, and none
when the floor is reached; in the latter case the sector modulation is 0 and
no error is raised (mtfSector is total). -/
theorem ctp528_sector_adaptive_threshold (f1 : List ℚ) (need : ℕ) :
    mtfThresholdLoop (npDiff f1) need 50 =
      (mtfThresholdList 50).find? (mtfSufficient (npDiff f1) need) ∧
    (mtfThresholdLoop (npDiff f1) need 50 = none → mtfSector f1 need = 0) := by
  constructor
  · exact mtfThresholdLoopAux_spec (npDiff f1) need 51 50 (by norm_num) (by norm_num)
  · intro hnone
    simp [mtfSector, hnone]

/-- C6 witness: a flat sector profile has no derivative peaks at any
threshold, the loop reaches the floor and gives up, and the sector
modulation is 0 with no error. -/
theorem ctp528_sector_unresolved_witness :
    mtfThresholdLoop (npDiff [0, 0, 0, 0]) 1 50 = none ∧ mtfSector [0, 0, 0, 0] 1 = 0 := by
  have hdf : npDiff ([0, 0, 0, 0] : List ℚ) = [0, 0, 0] := by
    norm_num [npDiff, List.zipWith]
  have hloop : mtfThresholdLoop (npDiff [0, 0, 0, 0]) 1 50 = none := by
    rw [hdf]
    decide
  exact ⟨hloop, (ctp528_sector_adaptive_threshold [0, 0, 0, 0] 1).2 hloop⟩

/-! ## C7 theorems -/

/-- C7: the uniformity analyzer computes the uniformity percentage as
(max - min) / max * 100 over the five region means (centre, north, south,
east, west), and for a perfectly uniform image, where all five region means
are one equal positive value, it returns exactly 0. -/
theorem ctp486_uniformity_formula_and_uniform_zero
    (im : ImageQ) (sz : ℕ × ℕ) (space0 : ℚ) (center : ℚ × ℚ) (bs off : ℚ) :
    (ctp486Uniformity im sz space0 center bs off =
      (listMaxD (ctp486RegionMeans im sz space0 center bs off) -
        listMinD (ctp486RegionMeans im sz space0 center bs off)) /
        listMaxD (ctp486RegionMeans im sz space0 center bs off) * 100) ∧
    (∀ m : ℚ, 0 < m →
      (∀ v ∈ ctp486RegionMeans im sz space0 center bs off, v = m) →
      ctp486Uniformity im sz space0 center bs off = 0) := by
  have h1 : ctp486Uniformity im sz space0 center bs off =
      (listMaxD (ctp486RegionMeans im sz space0 center bs off) -
        listMinD (ctp486RegionMeans im sz space0 center bs off)) /
        listMaxD (ctp486RegionMeans im sz space0 center bs off) * 100 := rfl
  refine ⟨h1, ?_⟩
  intro m _ hall
  have hne : ctp486RegionMeans im sz space0 center bs off ≠ [] := by
    simp [ctp486RegionMeans]
  rw [h1, listMaxD_const m _ hne hall, listMinD_const m _ hne hall]
  simp

/-- C7 witness: a constant image of value 5 on a 4 x 4 grid with unit
spacing, box size 1 and offset 1 has all five region means equal to 5, and
the uniformity is 0. -/
theorem ctp486_uniform_image_witness :
    (0 : ℚ) < 5 ∧
    (∀ v ∈ ctp486RegionMeans ⟨4, 4, fun _ _ => 5⟩ (4, 4) 1 (2, 2) 1 1, v = 5) ∧
    ctp486Uniformity ⟨4, 4, fun _ _ => 5⟩ (4, 4) 1 (2, 2) 1 1 = 0 := by
  have hmeans : ctp486RegionMeans ⟨4, 4, fun _ _ => 5⟩ (4, 4) 1 (2, 2) 1 1 =
      [5, 5, 5, 5, 5] := by
    norm_num [ctp486RegionMeans, boxValues, boxBounds, truncQ, listMean, List.range_succ]
  refine ⟨by norm_num, ?_, ?_⟩
  · rw [hmeans]
    intro v hv
    simpa using hv
  · exact (ctp486_uniformity_formula_and_uniform_zero ⟨4, 4, fun _ _ => 5⟩ (4, 4) 1 (2, 2) 1 1).2
      5 (by norm_num) (by rw [hmeans]; intro v hv; simpa using hv)

/-! ## C8 theorems -/

/-- C8 helper: the loop executes at most its fuel many iterations. -/
theorem refineAux_iters_le (step : PointQ → PointQ → Option (PointQ × PointQ))
    (ct0 cb0 : PointQ) :
    ∀ fuel ct cb cto cbo k,
      (refineAux step ct0 cb0 fuel ct cb cto cbo k).iters ≤ k + fuel := by
  intro fuel
  induction fuel with
  | zero =>
    intro ct cb cto cbo k
    simp [refineAux]
  | succ fuel ih =>
    intro ct cb cto cbo k
    cases hstep : step ct cb with
    | none => simp [refineAux, hstep]
    | some p =>
      obtain ⟨ctN, cbN⟩ := p
      by_cases hd : (divergedStep ctN cto || divergedStep cbN cbo) = true
      · simp [refineAux, hstep, hd]
      · have hdf : (divergedStep ctN cto || divergedStep cbN cbo) = false := by
          simpa using hd
        have := ih ctN cbN ctN cbN (k + 1)
        simp [refineAux, hstep, hdf]
        omega

/-- C8 helper: if the revert branch ran, the loop result is the original
pair. -/
theorem refineAux_reverted (step : PointQ → PointQ → Option (PointQ × PointQ))
    (ct0 cb0 : PointQ) :
    ∀ fuel ct cb cto cbo k,
      (refineAux step ct0 cb0 fuel ct cb cto cbo k).reverted = true →
        (refineAux step ct0 cb0 fuel ct cb cto cbo k).ct = ct0 ∧
        (refineAux step ct0 cb0 fuel ct cb cto cbo k).cb = cb0 := by
  intro fuel
  induction fuel with
  | zero =>
    intro ct cb cto cbo k hrev
    simp [refineAux] at hrev
  | succ fuel ih =>
    intro ct cb cto cbo k hrev
    cases hstep : step ct cb with
    | none =>
      rw [show refineAux step ct0 cb0 (fuel + 1) ct cb cto cbo k = ⟨ct, cb, k + 1, false⟩ from by
        simp [refineAux, hstep]] at hrev ⊢
      simp at hrev
    | some p =>
      obtain ⟨ctN, cbN⟩ := p
      by_cases hd : (divergedStep ctN cto || divergedStep cbN cbo) = true
      · rw [show refineAux step ct0 cb0 (fuel + 1) ct cb cto cbo k =
            ⟨ct0, cb0, k + 1, true⟩ from by simp [refineAux, hstep, hd]]
        exact ⟨rfl, rfl⟩
      · have hdf : (divergedStep ctN cto || divergedStep cbN cbo) = false := by
          simpa using hd
        rw [show refineAux step ct0 cb0 (fuel + 1) ct cb cto cbo k =
            refineAux step ct0 cb0 fuel ctN cbN ctN cbN (k + 1) from by
          simp [refineAux, hstep, hdf]] at hrev ⊢
        exact ih ctN cbN ctN cbN (k + 1) hrev

/-- C8: the rotation refinement performs at most 5 iterations, and whenever
an iteration moved either point by more than the 30-pixel threshold in any
coordinate (the revert branch ran), the refinement stops and the returned
top and bottom points are exactly the original nominal estimates computed
from the nominal geometry at plus and minus 90 degrees. -/
theorem find_rotation_refinement_bounded_with_rollback
    (step : PointQ → PointQ → Option (PointQ × PointQ)) (center : PointQ) (ringR : ℚ) :
    (findRotationRefine step center ringR).iters ≤ 5 ∧
    ((findRotationRefine step center ringR).reverted = true →
      (findRotationRefine step center ringR).ct = nominalTop center ringR ∧
      (findRotationRefine step center ringR).cb = nominalBot center ringR) := by
  constructor
  · simpa [findRotationRefine] using
      refineAux_iters_le step (nominalTop center ringR) (nominalBot center ringR)
        5 (nominalTop center ringR) (nominalBot center ringR)
        (nominalTop center ringR) (nominalBot center ringR) 0
  · intro hrev
    exact refineAux_reverted step (nominalTop center ringR) (nominalBot center ringR)
      5 (nominalTop center ringR) (nominalBot center ringR)
      (nominalTop center ringR) (nominalBot center ringR) 0 hrev

/-- C8 witness: a step function that jumps to (100, 100) and (200, 200) from
nominal estimates around center (0, 0) with ring radius 10 diverges on the
first iteration; the refinement reports the revert, stays within 5
iterations, and returns the nominal points (0, -10) and (0, 10). -/
theorem find_rotation_refinement_rollback_witness :
    (findRotationRefine (fun _ _ => some ((100, 100), (200, 200))) (0, 0) 10).reverted = true ∧
    (findRotationRefine (fun _ _ => some ((100, 100), (200, 200))) (0, 0) 10).iters ≤ 5 ∧
    (findRotationRefine (fun _ _ => some ((100, 100), (200, 200))) (0, 0) 10).ct =
      nominalTop (0, 0) 10 ∧
    (findRotationRefine (fun _ _ => some ((100, 100), (200, 200))) (0, 0) 10).cb =
      nominalBot (0, 0) 10 := by
  have hres : findRotationRefine (fun _ _ => some ((100, 100), (200, 200))) (0, 0) 10 =
      ⟨(0, -10), (0, 10), 1, true⟩ := by
    norm_num [findRotationRefine, refineAux, nominalTop, nominalBot, divergedStep]
  refine ⟨by rw [hres], ?_, ?_, ?_⟩
  · exact (find_rotation_refinement_bounded_with_rollback
      (fun _ _ => some ((100, 100), (200, 200))) (0, 0) 10).1
  · exact ((find_rotation_refinement_bounded_with_rollback
      (fun _ _ => some ((100, 100), (200, 200))) (0, 0) 10).2 (by rw [hres])).1
  · exact ((find_rotation_refinement_bounded_with_rollback
      (fun _ _ => some ((100, 100), (200, 200))) (0, 0) 10).2 (by rw [hres])).2

/-! ## C9 theorem -/

/-- C9: CTP404Module.analyze is deterministic over its object state: running
analyze twice from any starting state yields an identical output record on
the second run, and in particular an identical list of (ROI number,
material, mean, std) tuples. The only state the first run writes that the
second run reads is the cached averaged image, which the first run sets to
the exact image it used. -/
theorem ctp404_analyze_idempotent (ctx : TrigCtx) (inp : CTP404Inputs) (s0 : CTP404State) :
    (ctp404Analyze ctx inp (ctp404Analyze ctx inp s0).1).2 = (ctp404Analyze ctx inp s0).2 ∧
    ((ctp404Analyze ctx inp (ctp404Analyze ctx inp s0).1).2).contrastRois =
      ((ctp404Analyze ctx inp s0).2).contrastRois := by
  obtain ⟨ai, res, th⟩ := s0
  cases ai with
  | none => exact ⟨rfl, rfl⟩
  | some im => exact ⟨rfl, rfl⟩

/-! ## C10 theorems -/

/-- C10: when all nine per-sector modulation values are 0, the normalization
divisor max(mtf) of CTP528Module.analyze is 0, the division is performed
anyway (the embedding returns a total record, mirroring the source, which
raises no error on this path), every entry of the normalized MTF curve is
the not-a-number marker none, and all four reported percentage-MTF values
(mtf_80, mtf_50, mtf_30, mtf_10) are none, i.e. not well-defined numbers. -/
theorem ctp528_all_zero_mtf_division_by_zero (mtf : List ℚ)
    (hlen : mtf.length = 9) (hz : ∀ v ∈ mtf, v = 0) :
    listMaxD mtf = 0 ∧
    (ctp528AnalyzePost mtf).mtf80 = none ∧
    (ctp528AnalyzePost mtf).mtf50 = none ∧
    (ctp528AnalyzePost mtf).mtf30 = none ∧
    (ctp528AnalyzePost mtf).mtf10 = none ∧
    (ctp528AnalyzePost mtf).mtfArray = List.replicate 9 none := by
  have hne : mtf ≠ [] := by
    intro h
    rw [h] at hlen
    simp at hlen
  have hmax : listMaxD mtf = 0 := listMaxD_const 0 mtf hne hz
  have hnorm : normalizeMTF mtf = List.replicate 9 none := by
    unfold normalizeMTF
    rw [hmax]
    calc mtf.map (fun v => nanDiv v 0)
        = mtf.map (fun _ => (none : Option ℚ)) :=
          List.map_congr_left (fun v _ => by simp [nanDiv])
      _ = List.replicate mtf.length none := List.map_const' mtf none
      _ = List.replicate 9 none := by rw [hlen]
  have hany : (normalizeMTF mtf).reverse.any (fun v => v.isNone) = true := by
    rw [hnorm, List.reverse_replicate]
    decide
  refine ⟨hmax, ?_, ?_, ?_, ?_, ?_⟩ <;>
    simp [ctp528AnalyzePost, npInterp, hany, hnorm]

/-- C10 witness: the all-zero nine-sector modulation list has maximum 0 and
produces none for the normalized curve and for all percentage-MTF values. -/
theorem ctp528_all_zero_mtf_witness :
    (List.replicate 9 (0 : ℚ)).length = 9 ∧
    (∀ v ∈ List.replicate 9 (0 : ℚ), v = 0) ∧
    listMaxD (List.replicate 9 (0 : ℚ)) = 0 ∧
    (ctp528AnalyzePost (List.replicate 9 (0 : ℚ))).mtf80 = none ∧
    (ctp528AnalyzePost (List.replicate 9 (0 : ℚ))).mtfArray = List.replicate 9 none := by
  have h := ctp528_all_zero_mtf_division_by_zero (List.replicate 9 0) (by decide) (by decide)
  exact ⟨by decide, by decide, h.1, h.2.1, h.2.2.2.2.2⟩

end XVICatPhan


